import Mathlib

/-!
Shallow embedding of the `strict` crate (`non_empty_vec.rs`,
`non_empty_slice.rs`, `one_to_three.rs`) and proofs of its operation
contracts.

Modelling conventions:
* A Rust `Vec<T>` or slice `&[T]` is a Lean `List T`.
* A Rust method that may panic is modelled with an `Option` codomain,
  where `none` stands for the panic (a process abort, not a returned
  value); a Rust method returning `Result` is modelled with `Except`.
* A Rust `&mut self` method is modelled as a function taking the
  receiver and returning (its return value paired with) the updated
  receiver.
-/

/-- The `NotEnoughElementsError` unit struct of `non_empty_vec.rs`. -/
inductive NotEnoughElementsError where
  | mk
  deriving DecidableEq, Repr

/-- Model of `Vec::pop` from the Rust standard library: removes and
returns the last element, or returns `none` (without panicking) when the
vec is empty. -/
def vecPop {T : Type} (l : List T) : Option (T × List T) :=
  match l.getLast? with
  | none => none
  | some x => some (x, l.dropLast)

/-- Model of `Vec::insert` from the Rust standard library: inserts at
position `idx`, shifting later elements right.  The outer `none` models
the panic raised when `idx > len`. -/
def vecInsert {T : Type} (l : List T) (idx : Nat) (x : T) : Option (List T) :=
  if idx ≤ l.length then some (l.take idx ++ x :: l.drop idx) else none

/-- Model of `Vec::remove` from the Rust standard library: removes and
returns the element at `idx`, shifting later elements left.  The outer
`none` models the panic raised when `idx >= len`. -/
def vecRemove {T : Type} (l : List T) (idx : Nat) : Option (T × List T) :=
  match l[idx]? with
  | none => none
  | some x => some (x, l.take idx ++ l.drop (idx + 1))

/-- Model of `Vec::swap_remove` from the Rust standard library: removes
and returns the element at `idx`, moving the last element into its
place.  The outer `none` models the panic raised when `idx >= len`. -/
def vecSwapRemove {T : Type} (l : List T) (idx : Nat) : Option (T × List T) :=
  match l[idx]?, l.getLast? with
  | some x, some last => some (x, (l.set idx last).dropLast)
  | _, _ => none

/-- The `NonEmptyVec` struct of `non_empty_vec.rs`: a wrapping of a vec,
ensuring there is always at least one element.  As in the Rust source the
invariant is not part of the type; it is established by the constructors
and preserved by every method. -/
structure NonEmptyVec (T : Type) where
  vec : List T
  deriving DecidableEq, Repr

/-- `NonEmptyVec::len`.  The Rust source returns
`NonZeroUsize::new_unchecked(self.vec.len())`; we model the underlying
numeric value. -/
def NonEmptyVec.len {T : Type} (v : NonEmptyVec T) : Nat :=
  v.vec.length

/-- `NonEmptyVec::has_len`. -/
def NonEmptyVec.has_len {T : Type} (v : NonEmptyVec T) (len : Nat) : Bool :=
  v.vec.length == len

/-- `NonEmptyVec::push`: appends to the backing vec. -/
def NonEmptyVec.push {T : Type} (v : NonEmptyVec T) (value : T) : NonEmptyVec T :=
  ⟨v.vec ++ [value]⟩

/-- `NonEmptyVec::insert`: delegates to `Vec::insert` with no guard, so
`none` models the panic raised by `Vec::insert` when
`insertion_idx > len`. -/
def NonEmptyVec.insert {T : Type} (v : NonEmptyVec T) (insertion_idx : Nat)
    (value : T) : Option (NonEmptyVec T) :=
  (vecInsert v.vec insertion_idx value).map (fun l => ⟨l⟩)

/-- `NonEmptyVec::pop`: returns `none` and leaves the vec untouched when
it contains only one element, otherwise delegates to `Vec::pop`. -/
def NonEmptyVec.pop {T : Type} (v : NonEmptyVec T) : Option T × NonEmptyVec T :=
  if v.vec.length = 1 then
    (none, v)
  else
    match vecPop v.vec with
    | none => (none, v)
    | some (x, l) => (some x, ⟨l⟩)

/-- `NonEmptyVec::as_slice`. -/
def NonEmptyVec.as_slice {T : Type} (v : NonEmptyVec T) : List T :=
  v.vec

/-- `NonEmptyVec::remove`: errors with `NotEnoughElementsError` when the
vec has exactly one element, otherwise delegates to `Vec::remove`.  The
outer `none` models the panic raised by `Vec::remove` when
`idx >= len`. -/
def NonEmptyVec.remove {T : Type} (v : NonEmptyVec T) (idx : Nat) :
    Option (Except NotEnoughElementsError T × NonEmptyVec T) :=
  if v.vec.length = 1 then
    some (Except.error NotEnoughElementsError.mk, v)
  else
    match vecRemove v.vec idx with
    | none => none
    | some (x, l) => some (Except.ok x, ⟨l⟩)

/-- `NonEmptyVec::swap_remove`: errors with `NotEnoughElementsError` when
the vec has exactly one element, otherwise delegates to
`Vec::swap_remove`.  The outer `none` models the panic raised by
`Vec::swap_remove` when `idx >= len`. -/
def NonEmptyVec.swap_remove {T : Type} (v : NonEmptyVec T) (idx : Nat) :
    Option (Except NotEnoughElementsError T × NonEmptyVec T) :=
  if v.vec.length = 1 then
    some (Except.error NotEnoughElementsError.mk, v)
  else
    match vecSwapRemove v.vec idx with
    | none => none
    | some (x, l) => some (Except.ok x, ⟨l⟩)

/-- `impl TryFrom<Vec<T>> for NonEmptyVec<T>`: fails with
`NotEnoughElementsError` on an empty vec. -/
def NonEmptyVec.try_from {T : Type} (vec : List T) :
    Except NotEnoughElementsError (NonEmptyVec T) :=
  if vec.isEmpty then
    Except.error NotEnoughElementsError.mk
  else
    Except.ok ⟨vec⟩

/-- `impl From<T> for NonEmptyVec<T>`: a singleton vec. -/
def NonEmptyVec.from_value {T : Type} (value : T) : NonEmptyVec T :=
  ⟨[value]⟩

/-- One call on a `NonEmptyVec` receiver: the mutating methods of the
public API that could interact with the non-emptiness invariant. -/
inductive VecOp (T : Type) where
  | push (value : T)
  | insert (idx : Nat) (value : T)
  | pop
  | remove (idx : Nat)
  | swap_remove (idx : Nat)

/-- Applies one method call to the receiver.  `none` means the call
panicked (so no successor state exists); a call returning an explicit
error leaves the receiver as the method left it. -/
def applyOp {T : Type} (v : NonEmptyVec T) : VecOp T → Option (NonEmptyVec T)
  | VecOp.push x => some (v.push x)
  | VecOp.insert idx x => v.insert idx x
  | VecOp.pop => some v.pop.2
  | VecOp.remove idx => (v.remove idx).map Prod.snd
  | VecOp.swap_remove idx => (v.swap_remove idx).map Prod.snd

/-- Applies a sequence of method calls left to right, stopping at the
first panic. -/
def applyOps {T : Type} (v : NonEmptyVec T) : List (VecOp T) → Option (NonEmptyVec T)
  | [] => some v
  | op :: ops =>
    match applyOp v op with
    | none => none
    | some w => applyOps w ops

/-- The `NonEmptySlice` struct of `non_empty_slice.rs`: a wrapping of a
borrowed slice, ensuring there is always at least one element. -/
structure NonEmptySlice (T : Type) where
  slice : List T
  deriving DecidableEq, Repr

/-- `NonEmptySlice::as_slice`. -/
def NonEmptySlice.as_slice {T : Type} (s : NonEmptySlice T) : List T :=
  s.slice

/-- `impl TryFrom<&[T]> for NonEmptySlice<T>`: fails with
`NotEnoughElementsError` on an empty slice. -/
def NonEmptySlice.try_from {T : Type} (slice : List T) :
    Except NotEnoughElementsError (NonEmptySlice T) :=
  if slice.isEmpty then
    Except.error NotEnoughElementsError.mk
  else
    Except.ok ⟨slice⟩

/-- The `OneToThree` enum of `one_to_three.rs`: an ordered set of 1, 2 or
3 elements. -/
inductive OneToThree (T : Type) where
  | One (a : T)
  | Two (a b : T)
  | Three (a b c : T)
  deriving DecidableEq, Repr

/-- `OneToThree::len`. -/
def OneToThree.len {T : Type} : OneToThree T → Nat
  | OneToThree.One _ => 1
  | OneToThree.Two _ _ => 2
  | OneToThree.Three _ _ _ => 3

/-- `OneToThree::to_vec`. -/
def OneToThree.to_vec {T : Type} : OneToThree T → List T
  | OneToThree.One a => [a]
  | OneToThree.Two a b => [a, b]
  | OneToThree.Three a b c => [a, b, c]

/-- `OneToThree::sorted`: the explicit comparison decision tree of the
Rust source.  The source requires only `T: PartialOrd` and uses `<`; it
is embedded here over the decidable strict order of the element type. -/
def OneToThree.sorted {T : Type} [LT T]
    [DecidableRel ((· < ·) : T → T → Prop)] : OneToThree T → OneToThree T
  | OneToThree.One a => OneToThree.One a
  | OneToThree.Two a b =>
    if a < b then OneToThree.Two a b else OneToThree.Two b a
  | OneToThree.Three a b c =>
    if a < b then
      if b < c then OneToThree.Three a b c
      else if a < c then OneToThree.Three a c b
      else OneToThree.Three c a b
    else if a < c then OneToThree.Three b a c
    else if b < c then OneToThree.Three b c a
    else OneToThree.Three c b a

/-- `OneToThree::try_map`: applies `f` to each slot in order, the `?`
operator short-circuiting on the first error. -/
def OneToThree.try_map {T B E : Type} (f : T → Except E B) :
    OneToThree T → Except E (OneToThree B)
  | OneToThree.One a =>
    match f a with
    | Except.error e => Except.error e
    | Except.ok a' => Except.ok (OneToThree.One a')
  | OneToThree.Two a b =>
    match f a with
    | Except.error e => Except.error e
    | Except.ok a' =>
      match f b with
      | Except.error e => Except.error e
      | Except.ok b' => Except.ok (OneToThree.Two a' b')
  | OneToThree.Three a b c =>
    match f a with
    | Except.error e => Except.error e
    | Except.ok a' =>
      match f b with
      | Except.error e => Except.error e
      | Except.ok b' =>
        match f c with
        | Except.error e => Except.error e
        | Except.ok c' => Except.ok (OneToThree.Three a' b' c')

/-- `impl TryFrom<Vec<T>> for OneToThree<T>`: pops from the end of the
source vec up to three times; an empty source fails with the
`"Empty vec"` error string. -/
def OneToThree.try_from {T : Type} (v : List T) : Except String (OneToThree T) :=
  match vecPop v with
  | none => Except.error "Empty vec"
  | some (c, v1) =>
    match vecPop v1 with
    | none => Except.ok (OneToThree.One c)
    | some (b, v2) =>
      match vecPop v2 with
      | none => Except.ok (OneToThree.Two b c)
      | some (a, _) => Except.ok (OneToThree.Three a b c)

/-! ## Helper lemmas -/

lemma vecPop_concat {T : Type} (l : List T) (x : T) :
    vecPop (l ++ [x]) = some (x, l) := by
  simp [vecPop, List.getLast?_concat, List.dropLast_concat]

lemma vecPop_eq_some_of_ne_nil {T : Type} {l : List T} (h : l ≠ []) :
    ∃ x, l.getLast? = some x ∧ vecPop l = some (x, l.dropLast) := by
  obtain ⟨x, hx⟩ := Option.isSome_iff_exists.mp (List.getLast?_isSome.mpr h)
  exact ⟨x, hx, by simp [vecPop, hx]⟩

lemma vecInsert_eq_some {T : Type} {l l' : List T} {idx : Nat} {x : T}
    (h : vecInsert l idx x = some l') :
    idx ≤ l.length ∧ l' = l.take idx ++ x :: l.drop idx := by
  unfold vecInsert at h
  by_cases hle : idx ≤ l.length
  · simp [hle] at h
    exact ⟨hle, h.symm⟩
  · simp [hle] at h

lemma vecInsert_length {T : Type} {l l' : List T} {idx : Nat} {x : T}
    (h : vecInsert l idx x = some l') : l'.length = l.length + 1 := by
  obtain ⟨hle, rfl⟩ := vecInsert_eq_some h
  simp
  omega

lemma vecRemove_eq_some {T : Type} {l : List T} {idx : Nat} {p : T × List T}
    (h : vecRemove l idx = some p) :
    idx < l.length ∧ p.2 = l.take idx ++ l.drop (idx + 1) := by
  unfold vecRemove at h
  cases hg : l[idx]? with
  | none => simp [hg] at h
  | some x =>
    simp [hg] at h
    refine ⟨?_, by simp [← h]⟩
    exact (List.getElem?_eq_some_iff.mp hg).1

lemma vecRemove_length {T : Type} {l : List T} {idx : Nat} {p : T × List T}
    (h : vecRemove l idx = some p) : p.2.length + 1 = l.length := by
  obtain ⟨hlt, h2⟩ := vecRemove_eq_some h
  rw [h2]
  simp
  omega

lemma vecSwapRemove_eq_some {T : Type} {l : List T} {idx : Nat} {p : T × List T}
    (h : vecSwapRemove l idx = some p) :
    idx < l.length ∧ ∃ last, l.getLast? = some last ∧
      p.2 = (l.set idx last).dropLast := by
  unfold vecSwapRemove at h
  cases hg : l[idx]? with
  | none => simp [hg] at h
  | some x =>
    cases hl : l.getLast? with
    | none => simp [hg, hl] at h
    | some last =>
      simp [hg, hl] at h
      exact ⟨(List.getElem?_eq_some_iff.mp hg).1, last, rfl, by simp [← h]⟩

lemma vecSwapRemove_length {T : Type} {l : List T} {idx : Nat} {p : T × List T}
    (h : vecSwapRemove l idx = some p) : p.2.length + 1 = l.length := by
  obtain ⟨hlt, last, hl, h2⟩ := vecSwapRemove_eq_some h
  rw [h2]
  simp
  omega

lemma applyOp_pos {T : Type} {v w : NonEmptyVec T} {op : VecOp T}
    (h : 0 < v.vec.length) (ha : applyOp v op = some w) : 0 < w.vec.length := by
  cases op with
  | push x =>
    simp [applyOp] at ha
    subst ha
    simp [NonEmptyVec.push]
  | insert idx x =>
    simp [applyOp, NonEmptyVec.insert] at ha
    obtain ⟨l, hl, rfl⟩ := ha
    have := vecInsert_length hl
    simp [this]
  | pop =>
    simp [applyOp] at ha
    subst ha
    unfold NonEmptyVec.pop
    by_cases h1 : v.vec.length = 1
    · simp [h1]
    · rw [if_neg h1]
      obtain ⟨x, hx, hpop⟩ := vecPop_eq_some_of_ne_nil (List.length_pos.mp h)
      rw [hpop]
      simp [List.length_dropLast]
      omega
  | remove idx =>
    simp only [applyOp, Option.map_eq_some'] at ha
    obtain ⟨q, hq, hw⟩ := ha
    by_cases h1 : v.vec.length = 1
    · unfold NonEmptyVec.remove at hq
      rw [if_pos h1] at hq
      cases hq
      rw [← hw]
      exact h
    · rcases hvr : vecRemove v.vec idx with _ | ⟨x, l⟩
      · unfold NonEmptyVec.remove at hq
        rw [if_neg h1, hvr] at hq
        cases hq
      · unfold NonEmptyVec.remove at hq
        rw [if_neg h1, hvr] at hq
        cases hq
        have hlen := vecRemove_length hvr
        rw [← hw]
        simp at hlen ⊢
        omega
  | swap_remove idx =>
    simp only [applyOp, Option.map_eq_some'] at ha
    obtain ⟨q, hq, hw⟩ := ha
    by_cases h1 : v.vec.length = 1
    · unfold NonEmptyVec.swap_remove at hq
      rw [if_pos h1] at hq
      cases hq
      rw [← hw]
      exact h
    · rcases hvr : vecSwapRemove v.vec idx with _ | ⟨x, l⟩
      · unfold NonEmptyVec.swap_remove at hq
        rw [if_neg h1, hvr] at hq
        cases hq
      · unfold NonEmptyVec.swap_remove at hq
        rw [if_neg h1, hvr] at hq
        cases hq
        have hlen := vecSwapRemove_length hvr
        rw [← hw]
        simp at hlen ⊢
        omega

lemma applyOps_pos {T : Type} (ops : List (VecOp T)) :
    ∀ v w : NonEmptyVec T, 0 < v.vec.length → applyOps v ops = some w →
      0 < w.vec.length := by
  induction ops with
  | nil =>
    intro v w h ha
    simp [applyOps] at ha
    subst ha
    exact h
  | cons op ops ih =>
    intro v w h ha
    unfold applyOps at ha
    cases hop : applyOp v op with
    | none => rw [hop] at ha; simp at ha
    | some u =>
      rw [hop] at ha
      exact ih u w (applyOp_pos h hop) ha

/-! ## Claim theorems -/

/-- C1: every `NonEmptyVec` obtained from a valid construction
(`TryFrom<Vec<T>>` on a non-empty vec, or `From<T>` on a single element)
still reports `len() ≥ 1` after any sequence of `push`, `insert`, `pop`,
`remove` and `swap_remove` calls: the non-emptiness invariant is
preserved by every public operation. -/
theorem c1_nonempty_invariant (T : Type) (l : List T) (x : T)
    (v0 v1 : NonEmptyVec T) (ops : List (VecOp T))
    (hv0 : NonEmptyVec.try_from l = Except.ok v0 ∨ v0 = NonEmptyVec.from_value x)
    (happ : applyOps v0 ops = some v1) :
    1 ≤ v1.len := by
  have h0 : 0 < v0.vec.length := by
    rcases hv0 with h | h
    · unfold NonEmptyVec.try_from at h
      by_cases he : l.isEmpty
      · rw [if_pos he] at h
        cases h
      · rw [if_neg he] at h
        cases h
        simpa [List.isEmpty_iff, ← List.length_pos] using he
    · subst h
      simp [NonEmptyVec.from_value]
  exact applyOps_pos ops v0 v1 h0 happ

/-- C1 witness: starting from `try_from [1]`, the sequence
`push 2; pop; remove 0` ends in a state of length 1. -/
theorem c1_nonempty_invariant_witness :
    1 ≤ (⟨[1]⟩ : NonEmptyVec Nat).len :=
  c1_nonempty_invariant Nat [1] 0 ⟨[1]⟩ ⟨[1]⟩
    [VecOp.push 2, VecOp.pop, VecOp.remove 0]
    (Or.inl (by simp [NonEmptyVec.try_from]))
    (by decide)

/-- C2: `TryFrom<Vec<T>>` on a vec fails with `NotEnoughElementsError`
exactly when the vec is empty, so it succeeds exactly on non-empty vecs;
on success `as_slice` returns the original vec unchanged (round-trip);
and `TryFrom<&[T]>` for `NonEmptySlice` fails the same way on an empty
slice. -/
theorem c2_try_from_round_trip (T : Type) (l : List T) :
    (NonEmptyVec.try_from l = Except.error NotEnoughElementsError.mk ↔ l = []) ∧
    (NonEmptySlice.try_from l = Except.error NotEnoughElementsError.mk ↔ l = []) ∧
    (∀ v : NonEmptyVec T, NonEmptyVec.try_from l = Except.ok v →
      v.as_slice = l) := by
  refine ⟨?_, ?_, ?_⟩
  · cases l <;> simp [NonEmptyVec.try_from]
  · cases l <;> simp [NonEmptySlice.try_from]
  · intro v hv
    cases l with
    | nil => simp [NonEmptyVec.try_from] at hv
    | cons a t =>
      simp [NonEmptyVec.try_from] at hv
      rw [← hv]
      simp [NonEmptyVec.as_slice]

/-- C2 witness: the empty vec is rejected and `[1]` round-trips. -/
theorem c2_try_from_round_trip_witness :
    (NonEmptyVec.try_from ([] : List Nat) =
      Except.error NotEnoughElementsError.mk) ∧
    (NonEmptySlice.try_from ([] : List Nat) =
      Except.error NotEnoughElementsError.mk) ∧
    NonEmptyVec.as_slice ⟨[1]⟩ = [1] :=
  ⟨(c2_try_from_round_trip Nat []).1.mpr rfl,
   (c2_try_from_round_trip Nat []).2.1.mpr rfl,
   (c2_try_from_round_trip Nat [1]).2.2 ⟨[1]⟩ (by simp [NonEmptyVec.try_from])⟩

/-- C3: on a `NonEmptyVec` of length 1, `pop` returns `none` and leaves
the vec unchanged; on length > 1 it removes and returns the last
element, decreasing the length by one. -/
theorem c3_pop_spec (T : Type) (v : NonEmptyVec T) :
    (v.len = 1 → v.pop = (none, v)) ∧
    (1 < v.len →
      v.pop.1 = v.vec.getLast? ∧
      v.pop.2.vec = v.vec.dropLast ∧
      v.pop.2.len = v.len - 1) := by
  constructor
  · intro h
    have h1 : v.vec.length = 1 := h
    simp [NonEmptyVec.pop, h1]
  · intro h
    have h1 : v.vec.length ≠ 1 := by
      simp [NonEmptyVec.len] at h
      omega
    have hne : v.vec ≠ [] := by
      intro hnil
      simp [NonEmptyVec.len, hnil] at h
    obtain ⟨x, hx, hpop⟩ := vecPop_eq_some_of_ne_nil hne
    unfold NonEmptyVec.pop
    rw [if_neg h1, hpop, hx]
    refine ⟨rfl, rfl, ?_⟩
    simp [NonEmptyVec.len, List.length_dropLast]

/-- C3 witness: `pop` on `[1]` returns `none`; on `[1, 2]` it returns
the last element `2` and shrinks to `[1]`. -/
theorem c3_pop_spec_witness :
    (⟨[1]⟩ : NonEmptyVec Nat).pop = (none, ⟨[1]⟩) ∧
    (⟨[1, 2]⟩ : NonEmptyVec Nat).pop.1 = some 2 ∧
    (⟨[1, 2]⟩ : NonEmptyVec Nat).pop.2.vec = [1] :=
  ⟨(c3_pop_spec Nat ⟨[1]⟩).1 rfl,
   by
    have h := (c3_pop_spec Nat ⟨[1, 2]⟩).2 (by decide)
    exact ⟨by rw [h.1]; rfl, by rw [h.2.1]; rfl⟩⟩

/-- C4: on a `NonEmptyVec` of length 1, `remove i` and `swap_remove i`
fail with `NotEnoughElementsError` for every index `i`, leaving the
whole vec (hence its single element and its length) unchanged. -/
theorem c4_remove_len_one (T : Type) (v : NonEmptyVec T) (i : Nat)
    (h : v.len = 1) :
    v.remove i = some (Except.error NotEnoughElementsError.mk, v) ∧
    v.swap_remove i = some (Except.error NotEnoughElementsError.mk, v) := by
  have h1 : v.vec.length = 1 := h
  constructor
  · unfold NonEmptyVec.remove
    rw [if_pos h1]
  · unfold NonEmptyVec.swap_remove
    rw [if_pos h1]

/-- C4 witness: `remove 0` and `swap_remove 3` on the singleton `[7]`
both fail and keep the vec intact. -/
theorem c4_remove_len_one_witness :
    (⟨[7]⟩ : NonEmptyVec Nat).remove 0 =
      some (Except.error NotEnoughElementsError.mk, ⟨[7]⟩) ∧
    (⟨[7]⟩ : NonEmptyVec Nat).swap_remove 3 =
      some (Except.error NotEnoughElementsError.mk, ⟨[7]⟩) :=
  ⟨(c4_remove_len_one Nat ⟨[7]⟩ 0 rfl).1,
   (c4_remove_len_one Nat ⟨[7]⟩ 3 rfl).2⟩

lemma vecPop_nil {T : Type} : vecPop ([] : List T) = none := rfl

lemma vecPop_singleton {T : Type} (a : T) : vecPop [a] = some (a, []) := by
  simp [vecPop]

lemma vecPop_pair {T : Type} (a b : T) : vecPop [a, b] = some (b, [a]) := by
  simpa using vecPop_concat [a] b

lemma try_from_concat3 {T : Type} (l0 : List T) (a b c : T) :
    OneToThree.try_from (l0 ++ [a, b, c]) =
      Except.ok (OneToThree.Three a b c) := by
  unfold OneToThree.try_from
  rw [show l0 ++ [a, b, c] = ((l0 ++ [a]) ++ [b]) ++ [c] by simp]
  simp only [vecPop_concat]

/-- C5: over an element type whose `<` is a decidable strict total order
(`LinearOrder`), `sorted` returns an instance of the same arity whose
slots, read in order, are non-decreasing — for every input, ties
included. -/
theorem c5_sorted_nondecreasing (T : Type) [LinearOrder T] (x : OneToThree T) :
    x.sorted.len = x.len ∧ List.Chain' (· ≤ ·) x.sorted.to_vec := by
  cases x with
  | One a => simp [OneToThree.sorted, OneToThree.len, OneToThree.to_vec]
  | Two a b =>
    simp only [OneToThree.sorted]
    by_cases h : a < b
    · rw [if_pos h]
      simp [OneToThree.len, OneToThree.to_vec, List.chain'_cons]
      exact le_of_lt h
    · rw [if_neg h]
      simp [OneToThree.len, OneToThree.to_vec, List.chain'_cons]
      exact le_of_not_lt h
  | Three a b c =>
    simp only [OneToThree.sorted]
    split_ifs with h1 h2 h3 h4 h5 <;>
      simp [OneToThree.len, OneToThree.to_vec, List.chain'_cons] <;>
      constructor <;>
      first
        | exact le_of_lt h1
        | exact le_of_lt h2
        | exact le_of_lt h3
        | exact le_of_lt h4
        | exact le_of_lt h5
        | exact le_of_not_lt h1
        | exact le_of_not_lt h2
        | exact le_of_not_lt h3
        | exact le_of_not_lt h4
        | exact le_of_not_lt h5

/-- C6: `TryFrom<Vec<T>>` for `OneToThree` fails (with the
`"Empty vec"` error) exactly on the empty vec; a source of length 1, 2
or 3 yields the variant of that arity in input order; and any source
ending in `[a, b, c]` — in particular every source of length > 3 —
yields `Three a b c`, keeping the last three elements in input order and
silently dropping all earlier ones. -/
theorem c6_try_from_one_to_three (T : Type) :
    (∀ l : List T, OneToThree.try_from l = Except.error "Empty vec" ↔ l = []) ∧
    (∀ a : T, OneToThree.try_from [a] = Except.ok (OneToThree.One a)) ∧
    (∀ a b : T, OneToThree.try_from [a, b] = Except.ok (OneToThree.Two a b)) ∧
    (∀ (l0 : List T) (a b c : T),
      OneToThree.try_from (l0 ++ [a, b, c]) =
        Except.ok (OneToThree.Three a b c)) := by
  refine ⟨?_, ?_, ?_, try_from_concat3⟩
  · intro l
    constructor
    · intro h
      by_contra hne
      obtain ⟨l', x, rfl⟩ := (List.eq_nil_or_concat l).resolve_left hne
      unfold OneToThree.try_from at h
      simp only [List.concat_eq_append, vecPop_concat] at h
      rcases hp : vecPop l' with _ | ⟨b, v2⟩ <;> simp only [hp] at h
      · simp at h
      · rcases hq : vecPop v2 with _ | ⟨a, v3⟩ <;> simp only [hq] at h <;>
          simp at h
    · intro h
      subst h
      rfl
  · intro a
    unfold OneToThree.try_from
    simp only [vecPop_singleton, vecPop_nil]
  · intro a b
    unfold OneToThree.try_from
    simp only [vecPop_pair, vecPop_singleton, vecPop_nil]

/-- C6 witness: the empty vec fails, `[1, 2, 3]` yields
`Three 1 2 3`, and `[9, 1, 2, 3]` (length 4) also yields `Three 1 2 3`,
dropping the front element. -/
theorem c6_try_from_one_to_three_witness :
    OneToThree.try_from ([] : List Nat) = Except.error "Empty vec" ∧
    OneToThree.try_from [1, 2, 3] = Except.ok (OneToThree.Three 1 2 3) ∧
    OneToThree.try_from [9, 1, 2, 3] = Except.ok (OneToThree.Three 1 2 3) := by
  refine ⟨((c6_try_from_one_to_three Nat).1 []).mpr rfl, ?_, ?_⟩
  · have h := (c6_try_from_one_to_three Nat).2.2.2 [] 1 2 3
    simpa using h
  · have h := (c6_try_from_one_to_three Nat).2.2.2 [9] 1 2 3
    simpa using h

/-- C7: `try_map f` applies `f` to the slots in slot order and
short-circuits at the first slot where `f` fails, returning that
failure's error unchanged whatever `f` would yield on the later slots;
when `f` succeeds on every slot it returns the same arity holding the
transformed values positionally. -/
theorem c7_try_map_short_circuit (T B E : Type) (f : T → Except E B) :
    (∀ a e, f a = Except.error e →
      OneToThree.try_map f (OneToThree.One a) = Except.error e) ∧
    (∀ a a', f a = Except.ok a' →
      OneToThree.try_map f (OneToThree.One a) =
        Except.ok (OneToThree.One a')) ∧
    (∀ a b e, f a = Except.error e →
      OneToThree.try_map f (OneToThree.Two a b) = Except.error e) ∧
    (∀ a b a' e, f a = Except.ok a' → f b = Except.error e →
      OneToThree.try_map f (OneToThree.Two a b) = Except.error e) ∧
    (∀ a b a' b', f a = Except.ok a' → f b = Except.ok b' →
      OneToThree.try_map f (OneToThree.Two a b) =
        Except.ok (OneToThree.Two a' b')) ∧
    (∀ a b c e, f a = Except.error e →
      OneToThree.try_map f (OneToThree.Three a b c) = Except.error e) ∧
    (∀ a b c a' e, f a = Except.ok a' → f b = Except.error e →
      OneToThree.try_map f (OneToThree.Three a b c) = Except.error e) ∧
    (∀ a b c a' b' e, f a = Except.ok a' → f b = Except.ok b' →
      f c = Except.error e →
      OneToThree.try_map f (OneToThree.Three a b c) = Except.error e) ∧
    (∀ a b c a' b' c', f a = Except.ok a' → f b = Except.ok b' →
      f c = Except.ok c' →
      OneToThree.try_map f (OneToThree.Three a b c) =
        Except.ok (OneToThree.Three a' b' c')) := by
  refine ⟨?_, ?_, ?_, ?_, ?_, ?_, ?_, ?_, ?_⟩ <;>
    intros <;> simp [OneToThree.try_map, *]

/-- C7 witness: with `f` failing exactly on `0`, mapping over
`Three 1 0 2` stops at the middle slot and returns its error. -/
theorem c7_try_map_short_circuit_witness :
    OneToThree.try_map
      (fun n : Nat => if n = 0 then Except.error "z" else Except.ok n)
      (OneToThree.Three 1 0 2) = Except.error "z" :=
  (c7_try_map_short_circuit Nat Nat String
      (fun n : Nat => if n = 0 then Except.error "z" else Except.ok n)
    ).2.2.2.2.2.2.1 1 0 2 1 "z" rfl rfl

/-- C8 counterexample: on the singleton vec `[0]` (length 1), `insert`
at index 2 > 1 reaches `Vec::insert`'s bounds check and panics —
modelled as `none`, a process abort — rather than returning an explicit
out-of-range failure result: the Rust method's return type is `()`, so
it has no error channel at all. -/
theorem c8_insert_counterexample :
    (⟨[0]⟩ : NonEmptyVec Nat).insert 2 5 = none := by
  decide

/-- C8 amended: `insert(index, value)` succeeds — growing the length by
one — whenever `index ≤ len`; when `index > len` the call panics inside
`Vec::insert` (modelled `none`): no explicit failure result is
produced. -/
theorem c8_insert_amended (T : Type) (v : NonEmptyVec T) (idx : Nat) (x : T) :
    (idx ≤ v.len → ∃ w : NonEmptyVec T,
      v.insert idx x = some w ∧ w.len = v.len + 1) ∧
    (v.len < idx → v.insert idx x = none) := by
  constructor
  · intro h
    have h' : idx ≤ v.vec.length := h
    refine ⟨⟨v.vec.take idx ++ x :: v.vec.drop idx⟩, ?_, ?_⟩
    · simp [NonEmptyVec.insert, vecInsert, h']
    · simp [NonEmptyVec.len]
      omega
  · intro h
    have h' : ¬ idx ≤ v.vec.length := by
      have hlen : v.vec.length = v.len := rfl
      omega
    simp [NonEmptyVec.insert, vecInsert, h']

/-- C8 witness: on `[9]`, inserting at index 1 succeeds with length 2,
and inserting at index 3 panics. -/
theorem c8_insert_amended_witness :
    (∃ w : NonEmptyVec Nat,
      (⟨[9]⟩ : NonEmptyVec Nat).insert 1 4 = some w ∧ w.len = 2) ∧
    (⟨[9]⟩ : NonEmptyVec Nat).insert 3 4 = none :=
  ⟨(c8_insert_amended Nat ⟨[9]⟩ 1 4).1 (by decide),
   (c8_insert_amended Nat ⟨[9]⟩ 3 4).2 (by decide)⟩

/-- C9 counterexample: on `[1, 2]` (length 2), `remove 5` reaches
`Vec::remove`'s bounds check and panics — modelled as `none`, a process
abort — rather than returning an explicit index-error result: the only
error value `NonEmptyVec::remove` can ever return is
`NotEnoughElementsError`, and only when the length is 1. -/
theorem c9_remove_counterexample :
    (⟨[1, 2]⟩ : NonEmptyVec Nat).remove 5 = none := rfl

/-- C9 amended: on a `NonEmptyVec` of length ≥ 2, `remove i` with
`i ≥ len` panics inside `Vec::remove` (modelled `none`); no explicit
error result is produced and no successor state exists. -/
theorem c9_remove_amended (T : Type) (v : NonEmptyVec T) (i : Nat)
    (h2 : 2 ≤ v.len) (hi : v.len ≤ i) :
    v.remove i = none := by
  have hlen : v.vec.length = v.len := rfl
  have h1 : v.vec.length ≠ 1 := by omega
  unfold NonEmptyVec.remove
  rw [if_neg h1]
  have hr : vecRemove v.vec i = none := by
    unfold vecRemove
    have hg : v.vec[i]? = none := by
      rw [List.getElem?_eq_none]
      exact hi
    rw [hg]
  rw [hr]

/-- C9 witness: `remove 2` on `[3, 4]` (length 2) panics. -/
theorem c9_remove_amended_witness :
    (⟨[3, 4]⟩ : NonEmptyVec Nat).remove 2 = none :=
  c9_remove_amended Nat ⟨[3, 4]⟩ 2 (by decide) (by decide)

/-- C10: the slots of `sorted`, read in order, are a permutation of the
input's slots: the multiset of elements is preserved, nothing is
duplicated, dropped or invented. -/
theorem c10_sorted_perm (T : Type) [LinearOrder T] (x : OneToThree T) :
    List.Perm x.sorted.to_vec x.to_vec := by
  cases x with
  | One a => exact List.Perm.refl _
  | Two a b =>
    simp only [OneToThree.sorted]
    by_cases h : a < b
    · rw [if_pos h]
    · rw [if_neg h]
      simp only [OneToThree.to_vec]
      exact List.Perm.swap a b []
  | Three a b c =>
    simp only [OneToThree.sorted]
    split_ifs with h1 h2 h3 h4 h5 <;> simp only [OneToThree.to_vec]
    · exact List.Perm.refl _
    · exact List.Perm.cons a (List.Perm.swap b c [])
    · exact (List.Perm.swap a c [b]).trans
        (List.Perm.cons a (List.Perm.swap b c []))
    · exact List.Perm.swap a b [c]
    · exact (List.Perm.cons b (List.Perm.swap a c [])).trans
        (List.Perm.swap a b [c])
    · exact (List.Perm.swap b c [a]).trans
        ((List.Perm.cons b (List.Perm.swap a c [])).trans
          (List.Perm.swap a b [c]))
